import Mathlib

/-!
# Verification of the built-in functions of a CEL-style interpreter

This development embeds `interpreter/src/functions.rs` — the built-in
functions `size`, `contains`, `has` and `map` of a small CEL-style
expression interpreter — and proves properties about them.

The value model (`CelType`), the scoped variable context (`Context`), the
error taxonomy (`ExecutionError`), the expression tree (`Expression`) and
the resolver (`resolve`) live outside the supplied source file; they are
modelled from the specification, as marked on each such definition.  The
four built-in functions themselves are translated directly from the source.
-/

/-- Modelled from the spec: the restricted subset of value variants that may
serve as map keys (spec §3, "Map key restriction"). -/
inductive CelKey where
  | int (i : Int)
  | uint (u : Nat)
  | bool (b : Bool)
  | string (s : String)
deriving DecidableEq, Repr

/-- Modelled from the spec: the runtime value model (spec §3), a closed
tagged union.  `Int` holds the mathematical value of the source's `i32`;
`Bytes` is the byte sequence; `List` an ordered sequence of values; `Map`
its entry list (entry order irrelevant to lookups); `Function` a reference
to a named callable.  The spec's `Float` variant is outside the fragment
needed by the built-ins verified here and is omitted. -/
inductive CelType where
  | null
  | bool (b : Bool)
  | int (i : Int)
  | uint (u : Nat)
  | string (s : String)
  | bytes (b : List Nat)
  | list (items : List CelType)
  | map (entries : List (CelKey × CelType))
  | function (name : String)
deriving Repr

mutual

/-- Modelled from the spec: structural value equality of `CelType`
(spec §3 "equality"; the source relies on the value model's derived
equality, e.g. in `Vec::contains`). -/
def celEq : CelType → CelType → Bool
  | .null, .null => true
  | .bool a, .bool b => a == b
  | .int a, .int b => a == b
  | .uint a, .uint b => a == b
  | .string a, .string b => a == b
  | .bytes a, .bytes b => a == b
  | .list a, .list b => celEqList a b
  | .map a, .map b => celEqEntries a b
  | .function a, .function b => a == b
  | _, _ => false

/-- Elementwise equality of value lists. -/
def celEqList : List CelType → List CelType → Bool
  | [], [] => true
  | x :: xs, y :: ys => celEq x y && celEqList xs ys
  | _, _ => false

/-- Elementwise equality of map entry lists. -/
def celEqEntries : List (CelKey × CelType) → List (CelKey × CelType) → Bool
  | [], [] => true
  | (k₁, v₁) :: xs, (k₂, v₂) :: ys => k₁ == k₂ && celEq v₁ v₂ && celEqEntries xs ys
  | _, _ => false

end

mutual

theorem celEq_refl : (a : CelType) → celEq a a = true
  | .null => rfl
  | .bool a => by simp [celEq]
  | .int a => by simp [celEq]
  | .uint a => by simp [celEq]
  | .string a => by simp [celEq]
  | .bytes a => by simp [celEq]
  | .list a => by simp [celEq]; exact celEqList_refl a
  | .map a => by simp [celEq]; exact celEqEntries_refl a
  | .function a => by simp [celEq]

theorem celEqList_refl : (l : List CelType) → celEqList l l = true
  | [] => rfl
  | x :: xs => by
      simp [celEqList]
      exact ⟨celEq_refl x, celEqList_refl xs⟩

theorem celEqEntries_refl : (l : List (CelKey × CelType)) → celEqEntries l l = true
  | [] => rfl
  | (k, v) :: xs => by
      simp [celEqEntries]
      exact ⟨celEq_refl v, celEqEntries_refl xs⟩

end

mutual

theorem celEq_sound : (a b : CelType) → celEq a b = true → a = b
  | .null, .null, _ => rfl
  | .bool a, .bool b, h => by simp [celEq] at h; simp [h]
  | .int a, .int b, h => by simp [celEq] at h; simp [h]
  | .uint a, .uint b, h => by simp [celEq] at h; simp [h]
  | .string a, .string b, h => by simp [celEq] at h; simp [h]
  | .bytes a, .bytes b, h => by simp [celEq] at h; simp [h]
  | .list a, .list b, h => by
      simp [celEq] at h
      simp [celEqList_sound a b h]
  | .map a, .map b, h => by
      simp [celEq] at h
      simp [celEqEntries_sound a b h]
  | .function a, .function b, h => by simp [celEq] at h; simp [h]

theorem celEqList_sound : (l₁ l₂ : List CelType) → celEqList l₁ l₂ = true → l₁ = l₂
  | [], [], _ => rfl
  | x :: xs, y :: ys, h => by
      simp [celEqList] at h
      simp [celEq_sound x y h.1, celEqList_sound xs ys h.2]

theorem celEqEntries_sound :
    (l₁ l₂ : List (CelKey × CelType)) → celEqEntries l₁ l₂ = true → l₁ = l₂
  | [], [], _ => rfl
  | (k₁, v₁) :: xs, (k₂, v₂) :: ys, h => by
      simp [celEqEntries] at h
      simp [h.1.1, celEq_sound v₁ v₂ h.1.2, celEqEntries_sound xs ys h.2]

end

instance : BEq CelType := ⟨celEq⟩

theorem celEq_iff (a b : CelType) : celEq a b = true ↔ a = b :=
  ⟨celEq_sound a b, fun h => h ▸ celEq_refl a⟩

instance : DecidableEq CelType := fun a b =>
  if h : celEq a b = true then isTrue (celEq_sound a b h)
  else isFalse (fun hh => h (hh ▸ celEq_refl a))

theorem beq_celType_iff (a b : CelType) : (a == b) = true ↔ a = b :=
  celEq_iff a b

/-- Modelled from the spec: the closed error taxonomy (spec §3, "Error").
Constructor payloads follow the spec: `noSuchKey` carries the key or path,
`invalidArgumentCount` carries expected and actual counts,
`notSupportedAsMethod` carries the function name and the receiver value,
`functionError` carries the function name and a message,
`unsupportedKeyType` carries the rejected value. -/
inductive ExecutionError where
  | noSuchKey (key : String)
  | invalidArgumentCount (expected : Nat) (actual : Nat)
  | notSupportedAsMethod (name : String) (target : CelType)
  | missingArgumentOrTarget
  | functionError (name : String) (message : String)
  | unsupportedKeyType (value : CelType)
deriving DecidableEq, Repr

deriving instance DecidableEq for Except

/-- Modelled from the spec: the variant name of a value, used to render the
receiver in diagnostic messages (the source formats the value with the
debug formatter; the spec does not fix that rendering, so only the variant
name is modelled). -/
def celTypeName : CelType → String
  | .null => "Null"
  | .bool _ => "Bool"
  | .int _ => "Int"
  | .uint _ => "UInt"
  | .string _ => "String"
  | .bytes _ => "Bytes"
  | .list _ => "List"
  | .map _ => "Map"
  | .function _ => "Function"

/-- The value of the source's `as i32` cast applied to a `usize` count:
the low 32 bits of `n`, read as a two's-complement signed integer. -/
def usizeToI32 (n : Nat) : Int :=
  (((n + 2 ^ 31) % 2 ^ 32 : Nat) : Int) - 2 ^ 31

/-- Modelled from the spec: the scope chain (spec §3, "Scope") — a binding
frame (newest binding first) plus an optional parent scope. -/
inductive Context where
  | root (vars : List (String × CelType))
  | child (vars : List (String × CelType)) (parent : Context)

/-- Lookup in a single binding frame: the newest binding of a name wins,
so prepending a binding models the source's insert-or-overwrite. -/
def lookupFrame : List (String × CelType) → String → Option CelType
  | [], _ => none
  | (k, v) :: rest, n => if k = n then some v else lookupFrame rest n

/-- Modelled from the spec: variable lookup resolves in the current frame
first, then walks the parent chain; `none` when the chain is exhausted. -/
def lookupVariable : Context → String → Option CelType
  | .root vars, n => lookupFrame vars n
  | .child vars p, n =>
    match lookupFrame vars n with
    | some v => some v
    | none => lookupVariable p n

/-- Modelled from the spec: `add_variable` writes a binding into the
current frame only, never into a parent frame. -/
def addVariable : Context → String → CelType → Context
  | .root vars, n, v => .root ((n, v) :: vars)
  | .child vars p, n, v => .child ((n, v) :: vars) p

/-- Modelled from the spec: cloning a context creates a child context that
aliases the original as its parent and starts with an empty frame
(the source's `Context::clone` produces a `Context::Child`). -/
def cloneContext (ctx : Context) : Context := .child [] ctx

/-- The parent scope a context links to, if any. -/
def contextParent : Context → Option Context
  | .root _ => none
  | .child _ p => some p

/-- Modelled from the spec: the parser's expression tree (spec §3/§6):
literal, identifier, member-access, list-literal, map-literal and call
(optional receiver expression, function name, ordered raw argument list)
nodes.  The resolver only reads this tree. -/
inductive Expression where
  | lit (v : CelType)
  | ident (name : String)
  | member (base : Expression) (field : String)
  | listLit (items : List Expression)
  | mapLit (entries : List (Expression × Expression))
  | call (receiver : Option Expression) (name : String) (args : List Expression)

/-- Key lookup in a map's entry list (first matching entry wins). -/
def mapGetKey : List (CelKey × CelType) → CelKey → Option CelType
  | [], _ => none
  | (k, v) :: rest, key => if k = key then some v else mapGetKey rest key

/-- Modelled from the spec: conversion of a value to a map key, used by
map literals and by `contains` on a map receiver; fails when the variant is
not in the key subset (spec §3, "Map key restriction"). -/
def tryIntoKey : CelType → Except ExecutionError CelKey
  | .int i => .ok (.int i)
  | .uint u => .ok (.uint u)
  | .bool b => .ok (.bool b)
  | .string s => .ok (.string s)
  | v => .error (.unsupportedKeyType v)

/-- The loop of `map` from `functions.rs` with the transform's resolution
abstracted as a thunk — the closure shape the spec's design notes give the
lazy-argument protocol (spec §9).  The cloned child context is threaded
through the iterations; each iteration rebinds the loop identifier to the
current item in that child context, runs the thunk against it, and appends
the value; the first error is returned and the remaining items are not
processed. -/
def mapLoopGeneric (resolveT : Context → Except ExecutionError CelType) (ident : String) :
    List CelType → Context → Except ExecutionError (List CelType)
  | [], _ => .ok []
  | item :: rest, c =>
    let c' := addVariable c ident item
    match resolveT c' with
    | .error e => .error e
    | .ok v =>
      match mapLoopGeneric resolveT ident rest c' with
      | .error e => .error e
      | .ok vs => .ok (v :: vs)

/-- The value-level core of `size` from `functions.rs`: what `size` does
with the outcome of resolving its first argument — propagate the error, or
count the resolved value (cast `as i32`), rejecting uncountable variants
with `FunctionError`. -/
def sizeValue : Except ExecutionError CelType → Except ExecutionError CelType
  | .error e => .error e
  | .ok value =>
    match value with
    | .list l => .ok (.int (usizeToI32 l.length))
    | .map m => .ok (.int (usizeToI32 m.length))
    | .string s => .ok (.int (usizeToI32 s.utf8ByteSize))
    | .bytes b => .ok (.int (usizeToI32 b.length))
    | v => .error (.functionError "size" ("cannot determine size of " ++ celTypeName v))

/-- The value-level core of `contains` from `functions.rs`: what `contains`
does with its receiver and the outcome of resolving its first argument. -/
def containsValue (target : CelType) :
    Except ExecutionError CelType → Except ExecutionError CelType
  | .error e => .error e
  | .ok arg =>
    match target with
    | .list v => .ok (.bool (v.contains arg))
    | .map v =>
      match tryIntoKey arg with
      | .error e => .error e
      | .ok key => .ok (.bool (v.any (fun entry => entry.1 == key)))
    | .string s =>
      match arg with
      | .string sub => .ok (.bool (decide (List.IsInfix sub.data s.data)))
      | _ => .ok (.bool false)
    | .bytes b =>
      match arg with
      | .bytes a =>
        if a.length > 1 then
          .error (.functionError "contains" ("expected 1 byte, found " ++ toString a.length))
        else
          .ok (.bool (match a.head? with
            | some byte => b.contains byte
            | none => false))
      | _ => .ok (.bool false)
    | _ => .ok (.bool false)

/-- The value-level core of `has` from `functions.rs`: what `has` does with
the outcome of resolving its argument — `true` on success, `false` on
`NoSuchKey`, any other error re-raised unchanged. -/
def hasValue : Except ExecutionError CelType → Except ExecutionError CelType
  | .ok _ => .ok (.bool true)
  | .error e =>
    match e with
    | .noSuchKey _ => .ok (.bool false)
    | _ => .error e

/-- The list branch of `map` from `functions.rs`: run the loop over the
cloned child context and wrap the values as a list. -/
def mapList (resolveT : Context → Except ExecutionError CelType) (loopIdent : String)
    (items : List CelType) (ctx : Context) : Except ExecutionError CelType :=
  match mapLoopGeneric resolveT loopIdent items (cloneContext ctx) with
  | .error e => .error e
  | .ok values => .ok (.list values)

/-- The receiver-present core of `map` from `functions.rs`: extract the
loop identifier from the first argument expression (`get_ident`), require a
list receiver, and run the loop. -/
def mapCall (target : CelType) (first : Expression)
    (thunk : Context → Except ExecutionError CelType) (ctx : Context) :
    Except ExecutionError CelType :=
  match first with
  | .ident loopIdent =>
    match target with
    | .list items => mapList thunk loopIdent items ctx
    | _ => .error (.functionError "map" "map can only be called on a list")
  | _ => .error (.functionError "map" "first argument must be an identifier")

mutual

/-- Modelled from the spec: the resolver (spec §4.1).  Literals evaluate to
their embedded constant; identifiers look up the scope chain and fail with
`NoSuchKey` when the chain is exhausted; member access resolves the base
and projects the named key from a map value, failing with `NoSuchKey` when
the key is absent and with a type error (`FunctionError`) when the base is
not a map; list and map literals resolve their elements in source order,
abandoning the aggregate on the first failure, with non-key-variant map
keys rejected via `UnsupportedKeyType`; call nodes resolve the receiver
eagerly when present and then invoke the named built-in from the registry
(spec §4.2) with the target, the RAW argument expressions and the active
scope — the dispatched bodies below are the registry's built-ins, proved
identical to the stand-alone translations of `functions.rs` in
`resolve_call_eq`.  An unknown name fails with the registry-lookup
`FunctionError` (spec §4.1).  A receiverless `contains` call is a caller
contract violation the source does not handle defensively (spec §4.4, a
panic); this total model maps that one unreachable-by-contract case to a
`FunctionError`; no claim depends on it.  Errors short-circuit
throughout. -/
def resolve : Expression → Context → Except ExecutionError CelType
  | .lit v, _ => .ok v
  | .ident n, ctx =>
    match lookupVariable ctx n with
    | some v => .ok v
    | none => .error (.noSuchKey n)
  | .member base field, ctx =>
    match resolve base ctx with
    | .error e => .error e
    | .ok (.map entries) =>
      match mapGetKey entries (.string field) with
      | some v => .ok v
      | none => .error (.noSuchKey field)
    | .ok v =>
      .error (.functionError "member" ("member access is not supported on " ++ celTypeName v))
  | .listLit xs, ctx =>
    match resolveList xs ctx with
    | .error e => .error e
    | .ok values => .ok (.list values)
  | .mapLit entries, ctx =>
    match resolveEntries entries ctx with
    | .error e => .error e
    | .ok kvs => .ok (.map kvs)
  | .call none name args, ctx =>
    if name = "size" then
      match args with
      | [] => .error (.invalidArgumentCount 1 0)
      | arg :: _ => sizeValue (resolve arg ctx)
    else if name = "contains" then
      .error (.functionError "contains" "contains requires a receiver")
    else if name = "has" then
      match args with
      | [] => .error (.invalidArgumentCount 1 0)
      | arg :: _ => hasValue (resolve arg ctx)
    else if name = "map" then .error .missingArgumentOrTarget
    else .error (.functionError name "unknown function")
  | .call (some recvE) name args, ctx =>
    Except.bind (resolve recvE ctx) (fun target =>
      if name = "size" then .error (.notSupportedAsMethod "size" target)
      else if name = "contains" then
        match args with
        | [] => .error (.invalidArgumentCount 1 0)
        | argE :: _ => containsValue target (resolve argE ctx)
      else if name = "has" then .error (.notSupportedAsMethod "has" target)
      else if name = "map" then
        match args with
        | [first, second] => mapCall target first (fun c => resolve second c) ctx
        | _ => .error (.invalidArgumentCount 2 args.length)
      else .error (.functionError name "unknown function"))

/-- List-literal elements resolved in source order, first error aborts. -/
def resolveList : List Expression → Context → Except ExecutionError (List CelType)
  | [], _ => .ok []
  | x :: xs, ctx =>
    match resolve x ctx with
    | .error e => .error e
    | .ok v =>
      match resolveList xs ctx with
      | .error e => .error e
      | .ok vs => .ok (v :: vs)

/-- Map-literal entries resolved in source order (key, then value), with
the resolved key converted to the key subset; first error aborts. -/
def resolveEntries :
    List (Expression × Expression) → Context → Except ExecutionError (List (CelKey × CelType))
  | [], _ => .ok []
  | (kE, vE) :: rest, ctx =>
    match resolve kE ctx with
    | .error e => .error e
    | .ok kv =>
      match tryIntoKey kv with
      | .error e => .error e
      | .ok key =>
        match resolve vE ctx with
        | .error e => .error e
        | .ok v =>
          match resolveEntries rest ctx with
          | .error e => .error e
          | .ok kvs => .ok ((key, v) :: kvs)

end

/-- Unfolding equation of `resolve` on a literal node. -/
theorem resolve_lit (v : CelType) (ctx : Context) : resolve (.lit v) ctx = .ok v := rfl

/-- Unfolding equation of `resolve` on an identifier node. -/
theorem resolve_ident (n : String) (ctx : Context) :
    resolve (.ident n) ctx =
      (match lookupVariable ctx n with
       | some v => .ok v
       | none => .error (.noSuchKey n)) := rfl

/-- Unfolding equation of `resolve` on a member-access node. -/
theorem resolve_member (base : Expression) (field : String) (ctx : Context) :
    resolve (.member base field) ctx =
      (match resolve base ctx with
       | .error e => .error e
       | .ok (.map entries) =>
         match mapGetKey entries (.string field) with
         | some v => .ok v
         | none => .error (.noSuchKey field)
       | .ok v =>
         .error (.functionError "member"
           ("member access is not supported on " ++ celTypeName v))) := rfl

/-- Unfolding equation of `resolve` on a list-literal node. -/
theorem resolve_listLit (xs : List Expression) (ctx : Context) :
    resolve (.listLit xs) ctx =
      (match resolveList xs ctx with
       | .error e => .error e
       | .ok values => .ok (.list values)) := rfl

/-- Unfolding equation of `resolve` on a map-literal node. -/
theorem resolve_mapLit (entries : List (Expression × Expression)) (ctx : Context) :
    resolve (.mapLit entries) ctx =
      (match resolveEntries entries ctx with
       | .error e => .error e
       | .ok kvs => .ok (.map kvs)) := rfl

/-- Unfolding equation of `resolve` on a receiverless call node with no
arguments. -/
theorem resolve_call_none_nil (name : String) (ctx : Context) :
    resolve (.call none name []) ctx =
      (if name = "size" then .error (.invalidArgumentCount 1 0)
      else if name = "contains" then
        .error (.functionError "contains" "contains requires a receiver")
      else if name = "has" then .error (.invalidArgumentCount 1 0)
      else if name = "map" then .error .missingArgumentOrTarget
      else .error (.functionError name "unknown function")) := rfl

/-- Unfolding equation of `resolve` on a receiverless call node with at
least one argument. -/
theorem resolve_call_none_cons (name : String) (arg : Expression)
    (rest : List Expression) (ctx : Context) :
    resolve (.call none name (arg :: rest)) ctx =
      (if name = "size" then sizeValue (resolve arg ctx)
      else if name = "contains" then
        .error (.functionError "contains" "contains requires a receiver")
      else if name = "has" then hasValue (resolve arg ctx)
      else if name = "map" then .error .missingArgumentOrTarget
      else .error (.functionError name "unknown function")) := rfl

/-- Unfolding equation of `resolve` on a call node with a receiver and no
arguments: the receiver is resolved eagerly, then dispatched on. -/
theorem resolve_call_some_nil (recvE : Expression) (name : String) (ctx : Context) :
    resolve (.call (some recvE) name []) ctx =
      Except.bind (resolve recvE ctx) (fun target =>
        if name = "size" then .error (.notSupportedAsMethod "size" target)
        else if name = "contains" then .error (.invalidArgumentCount 1 0)
        else if name = "has" then .error (.notSupportedAsMethod "has" target)
        else if name = "map" then .error (.invalidArgumentCount 2 0)
        else .error (.functionError name "unknown function")) := rfl

/-- Unfolding equation of `resolve` on a call node with a receiver and one
argument. -/
theorem resolve_call_some_one (recvE : Expression) (name : String) (a1 : Expression)
    (ctx : Context) :
    resolve (.call (some recvE) name [a1]) ctx =
      Except.bind (resolve recvE ctx) (fun target =>
        if name = "size" then .error (.notSupportedAsMethod "size" target)
        else if name = "contains" then containsValue target (resolve a1 ctx)
        else if name = "has" then .error (.notSupportedAsMethod "has" target)
        else if name = "map" then .error (.invalidArgumentCount 2 1)
        else .error (.functionError name "unknown function")) := rfl

/-- Unfolding equation of `resolve` on a call node with a receiver and two
arguments (the `map` shape). -/
theorem resolve_call_some_two (recvE : Expression) (name : String) (a1 a2 : Expression)
    (ctx : Context) :
    resolve (.call (some recvE) name [a1, a2]) ctx =
      Except.bind (resolve recvE ctx) (fun target =>
        if name = "size" then .error (.notSupportedAsMethod "size" target)
        else if name = "contains" then containsValue target (resolve a1 ctx)
        else if name = "has" then .error (.notSupportedAsMethod "has" target)
        else if name = "map" then mapCall target a1 (fun c => resolve a2 c) ctx
        else .error (.functionError name "unknown function")) := rfl

/-- Unfolding equation of `resolve` on a call node with a receiver and three
or more arguments. -/
theorem resolve_call_some_more (recvE : Expression) (name : String)
    (a1 a2 a3 : Expression) (rest : List Expression) (ctx : Context) :
    resolve (.call (some recvE) name (a1 :: a2 :: a3 :: rest)) ctx =
      Except.bind (resolve recvE ctx) (fun target =>
        if name = "size" then .error (.notSupportedAsMethod "size" target)
        else if name = "contains" then containsValue target (resolve a1 ctx)
        else if name = "has" then .error (.notSupportedAsMethod "has" target)
        else if name = "map" then
          .error (.invalidArgumentCount 2 (a1 :: a2 :: a3 :: rest).length)
        else .error (.functionError name "unknown function")) := rfl

/-- Unfolding equation of `resolveList` on the empty list. -/
theorem resolveList_nil (ctx : Context) : resolveList [] ctx = .ok [] := rfl

/-- Unfolding equation of `resolveList` on a cons. -/
theorem resolveList_cons (x : Expression) (xs : List Expression) (ctx : Context) :
    resolveList (x :: xs) ctx =
      (match resolve x ctx with
       | .error e => .error e
       | .ok v =>
         match resolveList xs ctx with
         | .error e => .error e
         | .ok vs => .ok (v :: vs)) := rfl

/-- Unfolding equation of `resolveEntries` on the empty list. -/
theorem resolveEntries_nil (ctx : Context) : resolveEntries [] ctx = .ok [] := rfl

/-- Unfolding equation of `resolveEntries` on a cons. -/
theorem resolveEntries_cons (kE vE : Expression) (rest : List (Expression × Expression))
    (ctx : Context) :
    resolveEntries ((kE, vE) :: rest) ctx =
      (match resolve kE ctx with
       | .error e => .error e
       | .ok kv =>
         match tryIntoKey kv with
         | .error e => .error e
         | .ok key =>
           match resolve vE ctx with
           | .error e => .error e
           | .ok v =>
             match resolveEntries rest ctx with
             | .error e => .error e
             | .ok kvs => .ok ((key, v) :: kvs)) := rfl

namespace Functions

/-- `size` from `functions.rs`: free-function only (a present receiver is
rejected with `NotSupportedAsMethod`); reads the first argument (`args.get(0)`,
failing with `InvalidArgumentCount(1, 0)` when absent), resolves it eagerly,
and returns the count — list elements, map entries, string bytes (`String::len`),
byte-sequence length — cast to `i32`; any other resolved variant fails with
`FunctionError`. -/
def size (target : Option CelType) (args : List Expression) (ctx : Context) :
    Except ExecutionError CelType :=
  match target with
  | some t => .error (.notSupportedAsMethod "size" t)
  | none =>
    match args[0]? with
    | none => .error (.invalidArgumentCount 1 0)
    | some arg =>
      match resolve arg ctx with
      | .error e => .error e
      | .ok value =>
        match value with
        | .list l => .ok (.int (usizeToI32 l.length))
        | .map m => .ok (.int (usizeToI32 m.length))
        | .string s => .ok (.int (usizeToI32 s.utf8ByteSize))
        | .bytes b => .ok (.int (usizeToI32 b.length))
        | v => .error (.functionError "size" ("cannot determine size of " ++ celTypeName v))

/-- `contains` from `functions.rs`.  The source unwraps its `Option` receiver
unconditionally (absence is a caller contract violation, a panic, outside the
total fragment modelled here), so the receiver is taken directly.  Reads the
first argument, resolves it eagerly, then dispatches on the receiver variant:
list membership under value equality; map key membership after key conversion;
substring test on strings (non-string argument gives `false`); single-byte
membership on bytes (longer argument fails with `FunctionError`, non-bytes
argument gives `false`); any other receiver gives `false`. -/
def contains (target : CelType) (args : List Expression) (ctx : Context) :
    Except ExecutionError CelType :=
  match args[0]? with
  | none => .error (.invalidArgumentCount 1 0)
  | some argE =>
    match resolve argE ctx with
    | .error e => .error e
    | .ok arg =>
      match target with
      | .list v => .ok (.bool (v.contains arg))
      | .map v =>
        match tryIntoKey arg with
        | .error e => .error e
        | .ok key => .ok (.bool (v.any (fun entry => entry.1 == key)))
      | .string s =>
        match arg with
        | .string sub => .ok (.bool (decide (List.IsInfix sub.data s.data)))
        | _ => .ok (.bool false)
      | .bytes b =>
        match arg with
        | .bytes a =>
          if a.length > 1 then
            .error (.functionError "contains" ("expected 1 byte, found " ++ toString a.length))
          else
            .ok (.bool (match a.head? with
              | some byte => b.contains byte
              | none => false))
        | _ => .ok (.bool false)
      | _ => .ok (.bool false)

/-- `has` from `functions.rs`: free-function only (a present receiver is
rejected with `NotSupportedAsMethod`); reads the first argument and attempts
to resolve it: success gives `true`, a `NoSuchKey` failure is consumed and
gives `false`, and any other error is re-raised unchanged. -/
def has (target : Option CelType) (args : List Expression) (ctx : Context) :
    Except ExecutionError CelType :=
  match target with
  | some t => .error (.notSupportedAsMethod "has" t)
  | none =>
    match args[0]? with
    | none => .error (.invalidArgumentCount 1 0)
    | some arg =>
      match resolve arg ctx with
      | .ok _ => .ok (.bool true)
      | .error e =>
        match e with
        | .noSuchKey _ => .ok (.bool false)
        | _ => .error e

/-- `get_ident` from `functions.rs`: extracts the syntactic name of an
identifier expression; any other expression kind fails with `FunctionError`. -/
def get_ident : Expression → Except ExecutionError String
  | .ident name => .ok name
  | _ => .error (.functionError "map" "first argument must be an identifier")

/-- The loop of `map` from `functions.rs`: the cloned child context is
threaded through the iterations; each iteration rebinds the loop identifier
to the current item in that child context, resolves the transform expression
against it, and appends the value; the first resolution error is returned
and the remaining items are not processed. -/
def mapLoop (ident : String) (transform : Expression) :
    List CelType → Context → Except ExecutionError (List CelType)
  | [], _ => .ok []
  | item :: rest, c =>
    let c' := addVariable c ident item
    match resolve transform c' with
    | .error e => .error e
    | .ok v =>
      match mapLoop ident transform rest c' with
      | .error e => .error e
      | .ok vs => .ok (v :: vs)

/-- `map` from `functions.rs`: requires a receiver (`MissingArgumentOrTarget`
when absent) and exactly two arguments (`InvalidArgumentCount(2, actual)`
otherwise); the first argument must be an identifier expression; the receiver
must be a list (`FunctionError` otherwise); on success returns the list of
transform values produced by `mapLoop` over a cloned child context. -/
def map (target : Option CelType) (args : List Expression) (ctx : Context) :
    Except ExecutionError CelType :=
  match target with
  | none => .error .missingArgumentOrTarget
  | some target =>
    match args with
    | [first, second] =>
      match get_ident first with
      | .error e => .error e
      | .ok ident =>
        match target with
        | .list items =>
          match mapLoop ident second items (cloneContext ctx) with
          | .error e => .error e
          | .ok values => .ok (.list values)
        | _ => .error (.functionError "map" "map can only be called on a list")
    | _ => .error (.invalidArgumentCount 2 args.length)

/-- The context threaded through `map`'s loop after the first `n` iterations:
the source clones the caller's context once (creating a child scope whose
parent is the caller's scope) and then mutates that clone in place with
`add_variable` on each iteration; this definition is the value of that
mutated clone after `n` iterations. -/
def mapIterContext (ident : String) (items : List CelType) (ctx : Context) (n : Nat) : Context :=
  (items.take n).foldl (fun c item => addVariable c ident item) (cloneContext ctx)

end Functions

example : Functions.size none [.lit (.list [.int 1, .int 2, .int 3])] (.root []) = .ok (.int 3) := rfl
example : Functions.size none [.lit (.string "foo")] (.root []) = .ok (.int 3) := rfl
example : Functions.size none [.lit (.bytes [102, 111, 111])] (.root []) = .ok (.int 3) := rfl
example : Functions.contains (.list [.int 1, .int 2]) [.lit (.int 2)] (.root []) = .ok (.bool true) := rfl
example : Functions.contains (.string "abc") [.lit (.string "b")] (.root []) = .ok (.bool true) := rfl
example :
    Functions.has none [.member (.ident "foo") "bar"]
      (.root [("foo", .map [(.string "bar", .int 1)])]) = .ok (.bool true) := rfl
example :
    Functions.has none [.member (.ident "foo") "baz"]
      (.root [("foo", .map [(.string "bar", .int 1)])]) = .ok (.bool false) := rfl
example :
    Functions.has none [.member (.member (.ident "foo") "baz") "bar"]
      (.root [("foo", .map [(.string "bar", .int 1)])]) = .ok (.bool false) := rfl
example :
    Functions.map (some (.list [.int 1, .int 2])) [.ident "x", .ident "x"] (.root []) =
      .ok (.list [.int 1, .int 2]) := rfl

/-- Modelled from the spec: the function registry (spec §4.2/§6) — the
name-to-implementation mapping the resolver consults on call nodes,
populated with the stand-alone built-ins of `functions.rs`.  A
receiverless `contains` invocation is the caller contract violation noted
on `resolve` (a panic in the source), mapped to a `FunctionError` here; an
unregistered name fails with the registry-lookup `FunctionError`. -/
def registryDispatch (target : Option CelType) (name : String)
    (args : List Expression) (ctx : Context) : Except ExecutionError CelType :=
  if name = "size" then Functions.size target args ctx
  else if name = "contains" then
    match target with
    | some t => Functions.contains t args ctx
    | none => .error (.functionError "contains" "contains requires a receiver")
  else if name = "has" then Functions.has target args ctx
  else if name = "map" then Functions.map target args ctx
  else .error (.functionError name "unknown function")

/-- `size` without a receiver applies its value-level core to the
resolution of the first argument. -/
theorem size_eq_sizeValue (arg : Expression) (rest : List Expression) (ctx : Context) :
    Functions.size none (arg :: rest) ctx = sizeValue (resolve arg ctx) := by
  simp only [Functions.size, sizeValue, List.getElem?_cons_zero]

/-- `has` without a receiver applies its value-level core to the
resolution of the first argument. -/
theorem has_eq_hasValue (arg : Expression) (rest : List Expression) (ctx : Context) :
    Functions.has none (arg :: rest) ctx = hasValue (resolve arg ctx) := by
  simp only [Functions.has, hasValue, List.getElem?_cons_zero]

/-- `contains` applies its value-level core to the receiver and the
resolution of the first argument. -/
theorem contains_eq_containsValue (tv : CelType) (arg : Expression)
    (rest : List Expression) (ctx : Context) :
    Functions.contains tv (arg :: rest) ctx = containsValue tv (resolve arg ctx) := by
  simp only [Functions.contains, containsValue, List.getElem?_cons_zero]

/-- The source's `map` loop is the generic loop with the transform's
resolution passed as the thunk. -/
theorem mapLoop_eq_mapLoopGeneric (ident : String) (t : Expression) :
    ∀ (items : List CelType) (c : Context),
      Functions.mapLoop ident t items c =
        mapLoopGeneric (fun c2 => resolve t c2) ident items c
  | [], _ => rfl
  | item :: rest, c => by
      simp only [Functions.mapLoop, mapLoopGeneric,
        mapLoop_eq_mapLoopGeneric ident t rest (addVariable c ident item)]

/-- `map` on a receiver and two arguments is the receiver-present core with
the second argument's resolution as the loop thunk. -/
theorem map_eq_mapCall (tv : CelType) (a1 a2 : Expression) (ctx : Context) :
    Functions.map (some tv) [a1, a2] ctx = mapCall tv a1 (fun c => resolve a2 c) ctx := by
  cases a1 <;> cases tv <;>
    simp only [Functions.map, Functions.get_ident, mapCall, mapList,
      mapLoop_eq_mapLoopGeneric]

/-- The resolver's call dispatch is exactly the registry of stand-alone
built-ins translated from `functions.rs`: a call node resolves its receiver
eagerly when present and then behaves as `registryDispatch` on the
receiver's value, the raw argument expressions and the active scope. -/
theorem resolve_call_eq (receiver : Option Expression) (name : String)
    (args : List Expression) (ctx : Context) :
    resolve (.call receiver name args) ctx =
      (match receiver with
       | none => registryDispatch none name args ctx
       | some recvE =>
         Except.bind (resolve recvE ctx)
           (fun target => registryDispatch (some target) name args ctx)) := by
  cases receiver with
  | none =>
    show resolve (.call none name args) ctx = registryDispatch none name args ctx
    cases args with
    | nil =>
      rw [resolve_call_none_nil]
      simp only [registryDispatch]
      by_cases hs : name = "size"
      · simp only [if_pos hs]; rfl
      · simp only [if_neg hs]
        by_cases hc : name = "contains"
        · simp only [if_pos hc]
        · simp only [if_neg hc]
          by_cases hh : name = "has"
          · simp only [if_pos hh]; rfl
          · simp only [if_neg hh]
            by_cases hmp : name = "map"
            · simp only [if_pos hmp]; rfl
            · simp only [if_neg hmp]
    | cons arg rest =>
      rw [resolve_call_none_cons]
      simp only [registryDispatch]
      by_cases hs : name = "size"
      · simp only [if_pos hs]
        exact (size_eq_sizeValue arg rest ctx).symm
      · simp only [if_neg hs]
        by_cases hc : name = "contains"
        · simp only [if_pos hc]
        · simp only [if_neg hc]
          by_cases hh : name = "has"
          · simp only [if_pos hh]
            exact (has_eq_hasValue arg rest ctx).symm
          · simp only [if_neg hh]
            by_cases hmp : name = "map"
            · simp only [if_pos hmp]; rfl
            · simp only [if_neg hmp]
  | some recvE =>
    show _ = Except.bind (resolve recvE ctx)
      (fun target => registryDispatch (some target) name args ctx)
    cases args with
    | nil =>
      rw [resolve_call_some_nil]
      cases resolve recvE ctx with
      | error e => rfl
      | ok target =>
        simp only [Except.bind, registryDispatch]
        by_cases hs : name = "size"
        · simp only [if_pos hs]; rfl
        · simp only [if_neg hs]
          by_cases hc : name = "contains"
          · simp only [if_pos hc]; rfl
          · simp only [if_neg hc]
            by_cases hh : name = "has"
            · simp only [if_pos hh]; rfl
            · simp only [if_neg hh]
              by_cases hmp : name = "map"
              · simp only [if_pos hmp]; rfl
              · simp only [if_neg hmp]
    | cons a1 rest =>
      cases rest with
      | nil =>
        rw [resolve_call_some_one]
        cases resolve recvE ctx with
        | error e => rfl
        | ok target =>
          simp only [Except.bind, registryDispatch]
          by_cases hs : name = "size"
          · simp only [if_pos hs]; rfl
          · simp only [if_neg hs]
            by_cases hc : name = "contains"
            · simp only [if_pos hc]
              exact (contains_eq_containsValue target a1 [] ctx).symm
            · simp only [if_neg hc]
              by_cases hh : name = "has"
              · simp only [if_pos hh]; rfl
              · simp only [if_neg hh]
                by_cases hmp : name = "map"
                · simp only [if_pos hmp]; rfl
                · simp only [if_neg hmp]
      | cons a2 rest2 =>
        cases rest2 with
        | nil =>
          rw [resolve_call_some_two]
          cases resolve recvE ctx with
          | error e => rfl
          | ok target =>
            simp only [Except.bind, registryDispatch]
            by_cases hs : name = "size"
            · simp only [if_pos hs]; rfl
            · simp only [if_neg hs]
              by_cases hc : name = "contains"
              · simp only [if_pos hc]
                exact (contains_eq_containsValue target a1 [a2] ctx).symm
              · simp only [if_neg hc]
                by_cases hh : name = "has"
                · simp only [if_pos hh]; rfl
                · simp only [if_neg hh]
                  by_cases hmp : name = "map"
                  · simp only [if_pos hmp]
                    exact (map_eq_mapCall target a1 a2 ctx).symm
                  · simp only [if_neg hmp]
        | cons a3 rest3 =>
          rw [resolve_call_some_more]
          cases resolve recvE ctx with
          | error e => rfl
          | ok target =>
            simp only [Except.bind, registryDispatch]
            by_cases hs : name = "size"
            · simp only [if_pos hs]; rfl
            · simp only [if_neg hs]
              by_cases hc : name = "contains"
              · simp only [if_pos hc]
                exact (contains_eq_containsValue target a1 (a2 :: a3 :: rest3) ctx).symm
              · simp only [if_neg hc]
                by_cases hh : name = "has"
                · simp only [if_pos hh]; rfl
                · simp only [if_neg hh]
                  by_cases hmp : name = "map"
                  · simp only [if_pos hmp]; rfl
                  · simp only [if_neg hmp]

/-- `addVariable` shadows exactly the bound name and leaves every other
lookup unchanged. -/
theorem lookupVariable_addVariable (c : Context) (n : String) (v : CelType) (m : String) :
    lookupVariable (addVariable c n v) m = if n = m then some v else lookupVariable c m := by
  by_cases h : n = m <;>
    cases c <;> simp [addVariable, lookupVariable, lookupFrame, h]

/-- `addVariable` never changes which scope a context has as its parent. -/
theorem contextParent_addVariable (c : Context) (n : String) (v : CelType) :
    contextParent (addVariable c n v) = contextParent c := by
  cases c <;> rfl

/-- Variable lookup in a cloned context is lookup in the original: the
fresh child frame is empty. -/
theorem lookupVariable_clone (c : Context) (n : String) :
    lookupVariable (cloneContext c) n = lookupVariable c n := rfl

/-- The map loop respects lookup-equivalence of contexts whenever its
transform thunk does. -/
theorem mapLoopGeneric_ext (rT : Context → Except ExecutionError CelType)
    (hrT : ∀ d₁ d₂, (∀ n, lookupVariable d₁ n = lookupVariable d₂ n) → rT d₁ = rT d₂)
    (ident : String) :
    ∀ (items : List CelType) (d₁ d₂ : Context),
      (∀ n, lookupVariable d₁ n = lookupVariable d₂ n) →
      mapLoopGeneric rT ident items d₁ = mapLoopGeneric rT ident items d₂
  | [], _, _, _ => rfl
  | item :: rest, d₁, d₂, h => by
      have hadd : ∀ n, lookupVariable (addVariable d₁ ident item) n =
          lookupVariable (addVariable d₂ ident item) n := by
        intro n
        rw [lookupVariable_addVariable, lookupVariable_addVariable, h n]
      have h1 := hrT (addVariable d₁ ident item) (addVariable d₂ ident item) hadd
      have h2 := mapLoopGeneric_ext rT hrT ident rest (addVariable d₁ ident item)
        (addVariable d₂ ident item) hadd
      simp only [mapLoopGeneric, h1, h2]

mutual

/-- Resolution only observes a context through variable lookup: contexts
with pointwise-equal lookups resolve every expression identically. -/
theorem resolve_ext : (e : Expression) → (c₁ c₂ : Context) →
    (∀ n, lookupVariable c₁ n = lookupVariable c₂ n) → resolve e c₁ = resolve e c₂
  | .lit v, _, _, _ => rfl
  | .ident n, c₁, c₂, h => by simp only [resolve_ident, h n]
  | .member base field, c₁, c₂, h => by
      simp only [resolve_member, resolve_ext base c₁ c₂ h]
  | .listLit xs, c₁, c₂, h => by
      simp only [resolve_listLit, resolveList_ext xs c₁ c₂ h]
  | .mapLit entries, c₁, c₂, h => by
      simp only [resolve_mapLit, resolveEntries_ext entries c₁ c₂ h]
  | .call none name args, c₁, c₂, h => by
      cases args with
      | nil => rfl
      | cons arg rest =>
        simp only [resolve_call_none_cons, resolve_ext arg c₁ c₂ h]
  | .call (some recvE) name args, c₁, c₂, h => by
      cases args with
      | nil => rw [resolve_call_some_nil, resolve_call_some_nil, resolve_ext recvE c₁ c₂ h]
      | cons a1 rest =>
        cases rest with
        | nil =>
          rw [resolve_call_some_one, resolve_call_some_one, resolve_ext recvE c₁ c₂ h,
            resolve_ext a1 c₁ c₂ h]
        | cons a2 rest2 =>
          cases rest2 with
          | cons a3 rest3 =>
            rw [resolve_call_some_more, resolve_call_some_more, resolve_ext recvE c₁ c₂ h,
              resolve_ext a1 c₁ c₂ h]
          | nil =>
            rw [resolve_call_some_two, resolve_call_some_two, resolve_ext recvE c₁ c₂ h,
              resolve_ext a1 c₁ c₂ h]
            cases resolve recvE c₂ with
            | error e => rfl
            | ok target =>
              simp only [Except.bind]
              by_cases hs : name = "size"
              · simp only [if_pos hs]
              · simp only [if_neg hs]
                by_cases hc : name = "contains"
                · simp only [if_pos hc]
                · simp only [if_neg hc]
                  by_cases hh : name = "has"
                  · simp only [if_pos hh]
                  · simp only [if_neg hh]
                    by_cases hmp : name = "map"
                    · simp only [if_pos hmp]
                      cases a1 with
                      | ident loopIdent =>
                        cases target with
                        | list items =>
                          have hml := mapLoopGeneric_ext (fun c => resolve a2 c)
                            (fun d₁ d₂ hd => resolve_ext a2 d₁ d₂ hd) loopIdent items
                            (cloneContext c₁) (cloneContext c₂)
                            (fun n => by
                              rw [lookupVariable_clone, lookupVariable_clone, h n])
                          simp only [mapCall, mapList, hml]
                        | null => simp only [mapCall]
                        | bool b => simp only [mapCall]
                        | int i => simp only [mapCall]
                        | uint u => simp only [mapCall]
                        | string s => simp only [mapCall]
                        | bytes b => simp only [mapCall]
                        | map entries => simp only [mapCall]
                        | function fname => simp only [mapCall]
                      | lit v => simp only [mapCall]
                      | member base field => simp only [mapCall]
                      | listLit xs => simp only [mapCall]
                      | mapLit entries => simp only [mapCall]
                      | call r nm as2 => simp only [mapCall]
                    · simp only [if_neg hmp]

theorem resolveList_ext : (xs : List Expression) → (c₁ c₂ : Context) →
    (∀ n, lookupVariable c₁ n = lookupVariable c₂ n) → resolveList xs c₁ = resolveList xs c₂
  | [], _, _, _ => rfl
  | x :: xs, c₁, c₂, h => by
      simp only [resolveList_cons, resolve_ext x c₁ c₂ h, resolveList_ext xs c₁ c₂ h]

theorem resolveEntries_ext : (entries : List (Expression × Expression)) → (c₁ c₂ : Context) →
    (∀ n, lookupVariable c₁ n = lookupVariable c₂ n) →
    resolveEntries entries c₁ = resolveEntries entries c₂
  | [], _, _, _ => rfl
  | (kE, vE) :: rest, c₁, c₂, h => by
      simp only [resolveEntries_cons, resolve_ext kE c₁ c₂ h, resolve_ext vE c₁ c₂ h,
        resolveEntries_ext rest c₁ c₂ h]

end

/-- Left-to-right effectful traversal of a list in the `Except` monad,
returning the images in order or the first error. -/
def mapExcept (f : α → Except ε β) : List α → Except ε (List β)
  | [] => .ok []
  | x :: xs =>
    match f x with
    | .error e => .error e
    | .ok b =>
      match mapExcept f xs with
      | .error e => .error e
      | .ok bs => .ok (b :: bs)

theorem mapExcept_ok_length (f : α → Except ε β) :
    ∀ (l : List α) (bs : List β), mapExcept f l = .ok bs → bs.length = l.length
  | [], bs, h => by simp [mapExcept] at h; simp [← h]
  | x :: xs, bs, h => by
      simp only [mapExcept] at h
      cases hx : f x with
      | error e => rw [hx] at h; exact absurd h (by simp)
      | ok b =>
        rw [hx] at h
        cases hxs : mapExcept f xs with
        | error e => rw [hxs] at h; exact absurd h (by simp)
        | ok rest =>
          rw [hxs] at h
          simp at h
          subst h
          simp [mapExcept_ok_length f xs rest hxs]

theorem mapExcept_ok_get (f : α → Except ε β) :
    ∀ (l : List α) (bs : List β), mapExcept f l = .ok bs →
      ∀ (i : Nat) (hi : i < l.length) (hb : i < bs.length),
        f (l.get ⟨i, hi⟩) = .ok (bs.get ⟨i, hb⟩)
  | [], _, _, i, hi, _ => absurd hi (by simp)
  | x :: xs, bs, h, i, hi, hb => by
      simp only [mapExcept] at h
      cases hx : f x with
      | error e => rw [hx] at h; exact absurd h (by simp)
      | ok b =>
        rw [hx] at h
        cases hxs : mapExcept f xs with
        | error e => rw [hxs] at h; exact absurd h (by simp)
        | ok rest =>
          rw [hxs] at h
          simp at h
          subst h
          cases i with
          | zero => simpa using hx
          | succ j =>
            exact mapExcept_ok_get f xs rest hxs j (by simpa using hi) (by simpa using hb)

theorem mapExcept_error_first (f : α → Except ε β) :
    ∀ (l : List α) (j : Nat) (hj : j < l.length) (e : ε),
      f (l.get ⟨j, hj⟩) = .error e →
      (∀ (i : Nat) (hi : i < j), ∃ b, f (l.get ⟨i, Nat.lt_trans hi hj⟩) = .ok b) →
      mapExcept f l = .error e
  | [], j, hj, _, _, _ => absurd hj (by simp)
  | x :: xs, 0, _, e, hjf, _ => by simp at hjf; simp [mapExcept, hjf]
  | x :: xs, j + 1, hj, e, hjf, hok => by
      obtain ⟨b, hb⟩ := hok 0 (Nat.succ_pos j)
      simp at hb
      have hrest : mapExcept f xs = .error e := by
        refine mapExcept_error_first f xs j (by simpa using hj) e (by simpa using hjf) ?_
        intro i hi
        obtain ⟨bi, hbi⟩ := hok (i + 1) (Nat.succ_lt_succ hi)
        exact ⟨bi, by simpa using hbi⟩
      simp [mapExcept, hb, hrest]

/-- C1: `has(arg)` returns `Bool true` when the argument resolves, returns
`Bool false` exactly when resolution fails with `NoSuchKey`, and re-raises
any other error kind unchanged — it never returns `false` for a
non-`NoSuchKey` error. -/
theorem has_resolution_discrimination (arg : Expression) (ctx : Context) :
    (∀ v, resolve arg ctx = .ok v → Functions.has none [arg] ctx = .ok (.bool true)) ∧
    (∀ k, resolve arg ctx = .error (.noSuchKey k) →
      Functions.has none [arg] ctx = .ok (.bool false)) ∧
    (∀ e, resolve arg ctx = .error e → (∀ k, e ≠ .noSuchKey k) →
      Functions.has none [arg] ctx = .error e) := by
  refine ⟨?_, ?_, ?_⟩
  · intro v h
    simp [Functions.has, h]
  · intro k h
    simp [Functions.has, h]
  · intro e h hk
    cases e with
    | noSuchKey k => exact absurd rfl (hk k)
    | _ => simp [Functions.has, h]

theorem has_resolution_discrimination_witness :
    Functions.has none [.lit (.int 1)] (.root []) = .ok (.bool true) ∧
    Functions.has none [.ident "x"] (.root []) = .ok (.bool false) ∧
    Functions.has none [.member (.lit (.int 1)) "f"] (.root []) =
      .error (.functionError "member" "member access is not supported on Int") :=
  ⟨(has_resolution_discrimination (.lit (.int 1)) (.root [])).1 (.int 1) rfl,
   (has_resolution_discrimination (.ident "x") (.root [])).2.1 "x" rfl,
   (has_resolution_discrimination (.member (.lit (.int 1)) "f") (.root [])).2.2
     (.functionError "member" "member access is not supported on Int") rfl
     (fun k => by simp)⟩

/-- C7: `size` and `has` are free functions only — with a receiver present
they fail with `NotSupportedAsMethod`, regardless of the arguments. -/
theorem size_has_reject_receiver (t : CelType) (args : List Expression) (ctx : Context) :
    Functions.size (some t) args ctx = .error (.notSupportedAsMethod "size" t) ∧
    Functions.has (some t) args ctx = .error (.notSupportedAsMethod "has" t) :=
  ⟨rfl, rfl⟩

/-- C10: `map` without a receiver returns the defined error
`MissingArgumentOrTarget`, for any argument list and scope. -/
theorem map_missing_target (args : List Expression) (ctx : Context) :
    Functions.map none args ctx = .error .missingArgumentOrTarget := rfl

/-- Rebinding variables any number of times never changes which scope the
current frame links to as its parent. -/
theorem foldl_addVariable_parent (ident : String) :
    ∀ (l : List CelType) (c : Context),
      contextParent (l.foldl (fun c item => addVariable c ident item) c) = contextParent c
  | [], _ => rfl
  | x :: xs, c => by
      simp only [List.foldl_cons]
      rw [foldl_addVariable_parent ident xs (addVariable c ident x),
        contextParent_addVariable]

/-- C3: on every iteration count, the context `map`'s loop works in keeps
the caller's scope — unchanged, as the very same value — as its parent:
rebinding the loop identifier only ever writes into the cloned child frame,
so a variable of the same name bound in the parent scope before the call
still has its original value after `map` returns. -/
theorem map_parent_scope_preserved (ident : String) (items : List CelType)
    (ctx : Context) (n : Nat) :
    contextParent (Functions.mapIterContext ident items ctx n) = some ctx := by
  unfold Functions.mapIterContext
  rw [foldl_addVariable_parent]
  rfl

/-- The loop of `map` computes, for each item in order, the transform value
under the caller's cloned scope with the loop identifier bound to that item:
stacking rebindings of the one identifier is observationally the same as a
single fresh binding over the clone. -/
theorem mapLoop_eq_mapExcept (ident : String) (t : Expression) (ctx : Context) :
    ∀ (items : List CelType) (c : Context),
      (∀ n, n ≠ ident → lookupVariable c n = lookupVariable (cloneContext ctx) n) →
      Functions.mapLoop ident t items c =
        mapExcept (fun item => resolve t (addVariable (cloneContext ctx) ident item)) items := by
  intro items
  induction items with
  | nil => intro c h; rfl
  | cons item rest ih =>
    intro c h
    have hres : resolve t (addVariable c ident item) =
        resolve t (addVariable (cloneContext ctx) ident item) := by
      apply resolve_ext
      intro m
      rw [lookupVariable_addVariable, lookupVariable_addVariable]
      by_cases hm : ident = m
      · simp [hm]
      · simp only [hm, if_false]
        exact h m (fun hmm => hm hmm.symm)
    have hrest := ih (addVariable c ident item) (fun n hn => by
      rw [lookupVariable_addVariable]
      have : ¬(ident = n) := fun hh => hn hh.symm
      simp only [this, if_false]
      exact h n hn)
    simp only [Functions.mapLoop, mapExcept, hres, hrest]
    cases resolve t (addVariable (cloneContext ctx) ident item) with
    | error e => rfl
    | ok v =>
      cases mapExcept (fun item => resolve t (addVariable (cloneContext ctx) ident item)) rest with
      | error e => rfl
      | ok vs => rfl

/-- C2: a successful `map` over a list of `n` elements returns a new list of
exactly `n` elements in input order, whose `i`-th element is the transform
expression resolved with the loop identifier bound to the `i`-th input over
the caller's (cloned) scope; and when the transform fails on some element
whose predecessors all succeed, that first error is the result — no partial
list is returned. -/
theorem map_elementwise_results (items : List CelType) (ident : String)
    (t : Expression) (ctx : Context) :
    (∀ vs, Functions.map (some (.list items)) [.ident ident, t] ctx = .ok (.list vs) →
      vs.length = items.length ∧
      ∀ (i : Nat) (hi : i < items.length) (hv : i < vs.length),
        resolve t (addVariable (cloneContext ctx) ident (items.get ⟨i, hi⟩)) =
          .ok (vs.get ⟨i, hv⟩)) ∧
    (∀ (j : Nat) (hj : j < items.length) (e : ExecutionError),
      resolve t (addVariable (cloneContext ctx) ident (items.get ⟨j, hj⟩)) = .error e →
      (∀ (i : Nat) (hi : i < j), ∃ v,
        resolve t (addVariable (cloneContext ctx) ident (items.get ⟨i, Nat.lt_trans hi hj⟩)) =
          .ok v) →
      Functions.map (some (.list items)) [.ident ident, t] ctx = .error e) := by
  have hloop : Functions.mapLoop ident t items (cloneContext ctx) =
      mapExcept (fun item => resolve t (addVariable (cloneContext ctx) ident item)) items :=
    mapLoop_eq_mapExcept ident t ctx items (cloneContext ctx) (fun _ _ => rfl)
  have hmap : Functions.map (some (.list items)) [.ident ident, t] ctx =
      match mapExcept (fun item => resolve t (addVariable (cloneContext ctx) ident item)) items with
      | .error e => .error e
      | .ok values => .ok (.list values) := by
    simp only [Functions.map, Functions.get_ident, hloop]
  constructor
  · intro vs hvs
    rw [hmap] at hvs
    cases hme : mapExcept (fun item => resolve t (addVariable (cloneContext ctx) ident item)) items with
    | error e => rw [hme] at hvs; exact absurd hvs (by simp)
    | ok bs =>
      rw [hme] at hvs
      simp only [Except.ok.injEq, CelType.list.injEq] at hvs
      subst hvs
      exact ⟨mapExcept_ok_length _ items bs hme, mapExcept_ok_get _ items bs hme⟩
  · intro j hj e hje hok
    rw [hmap, mapExcept_error_first _ items j hj e hje hok]

theorem map_elementwise_results_witness :
    resolve (.ident "x") (addVariable (cloneContext (.root [])) "x"
        (([CelType.int 1, CelType.int 2].get ⟨1, by decide⟩))) =
      .ok ([CelType.int 1, CelType.int 2].get ⟨1, by decide⟩) ∧
    Functions.map (some (.list [.int 1])) [.ident "x", .ident "y"] (.root []) =
      .error (.noSuchKey "y") := by
  constructor
  · exact ((map_elementwise_results [CelType.int 1, CelType.int 2] "x"
      (.ident "x") (.root [])).1 [CelType.int 1, CelType.int 2] rfl).2 1 (by decide) (by decide)
  · exact (map_elementwise_results [CelType.int 1] "x" (.ident "y") (.root [])).2
      0 (by decide) (.noSuchKey "y") rfl (fun i hi => absurd hi (by omega))

instance : LawfulBEq CelType where
  eq_of_beq h := celEq_sound _ _ h
  rfl := celEq_refl _

/-- C5: `contains` on a list receiver computes list membership of the
resolved probe under value equality — `Bool true` exactly when some element
equals the probe, `Bool false` otherwise, and never an error, whatever the
probe's variant. -/
theorem contains_list_membership (v : List CelType) (argE : Expression) (ctx : Context)
    (x : CelType) (h : resolve argE ctx = .ok x) :
    Functions.contains (.list v) [argE] ctx = .ok (.bool (v.contains x)) ∧
    (Functions.contains (.list v) [argE] ctx = .ok (.bool true) ↔ x ∈ v) ∧
    (x ∉ v → Functions.contains (.list v) [argE] ctx = .ok (.bool false)) := by
  have hc : Functions.contains (.list v) [argE] ctx = .ok (.bool (v.contains x)) := by
    simp [Functions.contains, h]
  refine ⟨hc, ?_, ?_⟩
  · rw [hc]
    simp only [Except.ok.injEq, CelType.bool.injEq]
    exact List.elem_iff
  · intro hx
    rw [hc]
    have : v.contains x = false := by
      rw [← Bool.not_eq_true, List.elem_iff]
      exact hx
    rw [this]

theorem contains_list_membership_witness :
    Functions.contains (.list [.int 1, .int 2]) [.lit (.int 2)] (.root []) =
      .ok (.bool true) ∧
    Functions.contains (.list [.int 1, .int 2]) [.lit (.string "a")] (.root []) =
      .ok (.bool false) :=
  ⟨(contains_list_membership [.int 1, .int 2] (.lit (.int 2)) (.root [])
      (.int 2) rfl).2.1.mpr (by decide),
   (contains_list_membership [.int 1, .int 2] (.lit (.string "a")) (.root [])
      (.string "a") rfl).2.2 (by decide)⟩

/-- C6: `contains` on a bytes receiver fails with `FunctionError` whenever
the resolved argument is a byte sequence longer than one byte — it never
returns a boolean there — and yields `Bool false` whenever the resolved
argument is not a byte sequence at all. -/
theorem contains_bytes_multibyte_error (b : List Nat) (argE : Expression) (ctx : Context) :
    (∀ a : List Nat, resolve argE ctx = .ok (.bytes a) → a.length > 1 →
      Functions.contains (.bytes b) [argE] ctx =
        .error (.functionError "contains" ("expected 1 byte, found " ++ toString a.length))) ∧
    (∀ x : CelType, resolve argE ctx = .ok x → (∀ a, x ≠ .bytes a) →
      Functions.contains (.bytes b) [argE] ctx = .ok (.bool false)) := by
  constructor
  · intro a h hlen
    simp [Functions.contains, h, hlen]
  · intro x h hx
    cases x with
    | bytes a => exact absurd rfl (hx a)
    | _ => simp [Functions.contains, h]

theorem contains_bytes_multibyte_error_witness :
    Functions.contains (.bytes [1]) [.lit (.bytes [1, 2])] (.root []) =
      .error (.functionError "contains" "expected 1 byte, found 2") ∧
    Functions.contains (.bytes [1]) [.lit (.int 1)] (.root []) = .ok (.bool false) :=
  ⟨by
    have h := (contains_bytes_multibyte_error [1] (.lit (.bytes [1, 2])) (.root [])).1
      [1, 2] rfl (by decide)
    simpa using h,
   (contains_bytes_multibyte_error [1] (.lit (.int 1)) (.root [])).2
    (.int 1) rfl (fun a => by simp)⟩

/-- C9 counterexample: a call of `size`, `contains` or `has` with more than
one argument CAN fail with `InvalidArgumentCount`: when the first argument
is itself a receiverless zero-argument `size()` call, resolving that
argument fails with `InvalidArgumentCount(1, 0)` inside the nested built-in
(the `args.get(0).ok_or(...)` check), and the outer function propagates the
resolution error unchanged. -/
theorem extra_arguments_claim_counterexample :
    Functions.size none [.call none "size" [], .lit (.int 1)] (.root []) =
      .error (.invalidArgumentCount 1 0) ∧
    Functions.contains (.list []) [.call none "size" [], .lit (.int 1)] (.root []) =
      .error (.invalidArgumentCount 1 0) ∧
    Functions.has none [.call none "size" [], .lit (.int 1)] (.root []) =
      .error (.invalidArgumentCount 1 0) :=
  ⟨rfl, rfl, rfl⟩

/-- C9 (amended): `size`, `contains` and `has` inspect only their first
argument expression: with extra arguments present the result is exactly the
result of the call with the first argument alone — so the functions' own
argument-count check cannot fire once an argument is present, though an
`InvalidArgumentCount` produced while RESOLVING the first argument (by a
nested zero-argument call, see the counterexample) is propagated like any
other resolution error. -/
theorem extra_arguments_ignored (t : CelType) (arg : Expression)
    (rest : List Expression) (ctx : Context) :
    Functions.size none (arg :: rest) ctx = Functions.size none [arg] ctx ∧
    Functions.contains t (arg :: rest) ctx = Functions.contains t [arg] ctx ∧
    Functions.has none (arg :: rest) ctx = Functions.has none [arg] ctx := by
  refine ⟨?_, ?_, ?_⟩
  · simp only [Functions.size, List.getElem?_cons_zero]
  · simp only [Functions.contains, List.getElem?_cons_zero]
  · simp only [Functions.has, List.getElem?_cons_zero]

/-- The variants whose size the `size` built-in can determine. -/
def sizable : CelType → Bool
  | .list _ => true
  | .map _ => true
  | .string _ => true
  | .bytes _ => true
  | _ => false

/-- Counts below `2 ^ 31` pass through the `as i32` cast unchanged. -/
theorem usizeToI32_of_lt (n : Nat) (h : n < 2 ^ 31) : usizeToI32 n = n := by
  unfold usizeToI32
  have h2 : n + 2 ^ 31 < 2 ^ 32 := by omega
  rw [Nat.mod_eq_of_lt h2]
  push_cast
  omega

/-- C4 (amended): for a successfully resolved argument whose count is below
`2 ^ 31` (so that the source's `as i32` cast is the identity), `size`
returns the element count for a `List`, the entry count for a `Map`, the
BYTE count — not the code-point count — for a `String`, and the byte count
for `Bytes`; any other resolved variant fails with `FunctionError`. -/
theorem size_counts (argE : Expression) (ctx : Context) :
    (∀ l : List CelType, resolve argE ctx = .ok (.list l) → l.length < 2 ^ 31 →
      Functions.size none [argE] ctx = .ok (.int l.length)) ∧
    (∀ m : List (CelKey × CelType), resolve argE ctx = .ok (.map m) → m.length < 2 ^ 31 →
      Functions.size none [argE] ctx = .ok (.int m.length)) ∧
    (∀ s : String, resolve argE ctx = .ok (.string s) → s.utf8ByteSize < 2 ^ 31 →
      Functions.size none [argE] ctx = .ok (.int s.utf8ByteSize)) ∧
    (∀ b : List Nat, resolve argE ctx = .ok (.bytes b) → b.length < 2 ^ 31 →
      Functions.size none [argE] ctx = .ok (.int b.length)) ∧
    (∀ v : CelType, resolve argE ctx = .ok v → sizable v = false →
      Functions.size none [argE] ctx =
        .error (.functionError "size" ("cannot determine size of " ++ celTypeName v))) := by
  refine ⟨?_, ?_, ?_, ?_, ?_⟩
  · intro l h hlt
    simp [Functions.size, h, usizeToI32_of_lt _ hlt]
  · intro m h hlt
    simp [Functions.size, h, usizeToI32_of_lt _ hlt]
  · intro s h hlt
    simp [Functions.size, h, usizeToI32_of_lt _ hlt]
  · intro b h hlt
    simp [Functions.size, h, usizeToI32_of_lt _ hlt]
  · intro v h hs
    cases v
    case list l => simp [sizable] at hs
    case map m => simp [sizable] at hs
    case string s => simp [sizable] at hs
    case bytes b => simp [sizable] at hs
    all_goals simp [Functions.size, h]

theorem size_counts_witness :
    Functions.size none [.lit (.list [.int 7])] (.root []) = .ok (.int 1) ∧
    Functions.size none [.lit (.string "foo")] (.root []) = .ok (.int 3) ∧
    Functions.size none [.lit .null] (.root []) =
      .error (.functionError "size" "cannot determine size of Null") := by
  refine ⟨?_, ?_, ?_⟩
  · exact ((size_counts (.lit (.list [.int 7])) (.root [])).1
      [.int 7] rfl (by decide)).trans (by decide)
  · exact ((size_counts (.lit (.string "foo")) (.root [])).2.2.1
      "foo" rfl (by decide)).trans (by decide)
  · exact (size_counts (.lit .null) (.root [])).2.2.2.2 .null rfl (by decide)

/-- C4 counterexample: the claim as stated fails on the code twice over.
A string's size is its UTF-8 byte count, not its code-point count: the
one-code-point string consisting of the letter e with acute accent has
size 2.  And the count goes through an `as i32` cast: a list of `2 ^ 31`
elements has size `-(2 ^ 31)`, not its element count `2 ^ 31`. -/
theorem size_claim_counterexample :
    (Functions.size none [.lit (.string "é")] (.root []) = .ok (.int 2) ∧
      "é".length = 1) ∧
    (Functions.size none [.lit (.list (List.replicate (2 ^ 31) CelType.null))] (.root []) =
        .ok (.int (-(2 ^ 31))) ∧
      (List.replicate (2 ^ 31) CelType.null).length = 2 ^ 31 ∧
      (-(2 ^ 31) : Int) ≠ 2 ^ 31) := by
  refine ⟨⟨by decide, by decide⟩, ?_, by rw [List.length_replicate], by norm_num⟩
  have hres : resolve (.lit (.list (List.replicate (2 ^ 31) CelType.null))) (.root []) =
      .ok (.list (List.replicate (2 ^ 31) CelType.null)) := rfl
  simp only [Functions.size, List.getElem?_cons_zero, hres, List.length_replicate]
  norm_num [usizeToI32]

/-- C8 counterexample: a call of `map` whose argument count is `0 ≠ 2` but
whose receiver is absent does not produce `InvalidArgumentCount(2, 0)` —
the receiver check runs first and produces `MissingArgumentOrTarget`. -/
theorem map_arity_claim_counterexample :
    Functions.map none [] (.root []) ≠ .error (.invalidArgumentCount 2 0) ∧
    Functions.map none [] (.root []) = .error .missingArgumentOrTarget :=
  ⟨by decide, rfl⟩

/-- C8 (amended): for every call of `map` WITH A RECEIVER PRESENT and an
argument count `n ≠ 2`, the result is `InvalidArgumentCount(2, n)`; and with
a receiver present, exactly two arguments, the first an identifier, but a
non-`List` receiver, the result is the type error `FunctionError`, never a
value.  (Without a receiver the result is `MissingArgumentOrTarget` instead,
whatever the argument count.) -/
theorem map_arity_and_type_errors (t : CelType) (args : List Expression) (ctx : Context) :
    (args.length ≠ 2 →
      Functions.map (some t) args ctx = .error (.invalidArgumentCount 2 args.length)) ∧
    (∀ (name : String) (transform : Expression), (∀ items, t ≠ .list items) →
      Functions.map (some t) [.ident name, transform] ctx =
        .error (.functionError "map" "map can only be called on a list")) := by
  constructor
  · intro h
    cases args with
    | nil => rfl
    | cons a as =>
      cases as with
      | nil => rfl
      | cons b bs =>
        cases bs with
        | nil => exact absurd rfl h
        | cons c cs => rfl
  · intro name transform hT
    cases t
    case list items => exact absurd rfl (hT items)
    all_goals rfl

theorem map_arity_and_type_errors_witness :
    Functions.map (some (.int 1)) [] (.root []) = .error (.invalidArgumentCount 2 0) ∧
    Functions.map (some (.int 1)) [.ident "x", .ident "x"] (.root []) =
      .error (.functionError "map" "map can only be called on a list") :=
  ⟨(map_arity_and_type_errors (.int 1) [] (.root [])).1 (by decide),
   (map_arity_and_type_errors (.int 1) [.ident "x", .ident "x"] (.root [])).2 "x" (.ident "x")
     (fun items => by simp)⟩

